import Mathlib

/-!
A shallow embedding of the core of `llama2.cu` (a CUDA port of llama2.c, the
only substantive source file of the repository; `llama2.c` is an abandoned
earlier stub of the same program).

Modelling conventions:
* C `float` values are idealized as exact rationals (`Rat`); the float
  computation `1.0f / sqrtf` performed by `rmsnorm` is kept abstract as a
  function parameter `invsqrt : Rat → Rat`, since no theorem below depends
  on its actual values.
* C `int` values are `Int`; unsigned or index-like quantities are `Nat`.
  C truncating integer division is `Int.tdiv`.
* Byte strings (vocabulary pieces, input text) are `List Nat` of byte
  values, avoiding any dependence on a character encoding.
* Flat weight buffers are `List Rat` indexed by `slice`; out-of-range list
  reads (undefined behaviour in C) are totalized with default values, and
  every theorem that depends on an index being in range either proves the
  bound or takes it as a hypothesis.
* Fatal-error exits are explicit constructors (`LoadError`, `GenOutcome`).
-/

namespace Llama2

/-- Truncating integer division, the semantics of C `/` on `int` operands. -/
def cdiv (a b : Int) : Int := Int.tdiv a b

/-- The seven-field checkpoint header, struct `Config` of `llama2.cu`
(lines 78-86): `dim, hidden_dim, n_layers, n_heads, n_kv_heads, vocab_size,
max_seq_len`, each a 4-byte signed integer. -/
structure Config where
  dim : Int
  hidden_dim : Int
  n_layers : Int
  n_heads : Int
  n_kv_heads : Int
  vocab_size : Int
  max_seq_len : Int
  deriving DecidableEq

/-- Offsets (in units of 4-byte floats, measured from the start of the weight
blob) of each weight region, as computed by the pointer walk of
`memory_map_weights` (`llama2.cu` lines 376-405). -/
structure WeightOffsets where
  tokenEmbeddingTable : Int
  rmsAttWeight : Int
  wq : Int
  wk : Int
  wv : Int
  wo : Int
  rmsFfnWeight : Int
  w1 : Int
  w2 : Int
  w3 : Int
  rmsFinalWeight : Int
  wcls : Int
  deriving DecidableEq

/-- `memory_map_weights` (`llama2.cu` lines 376-405): walks the flat weight
buffer in the fixed region order, skips the two legacy rotary-table regions
of `max_seq_len * head_size / 2` floats each, and points `wcls` either back
at the token-embedding table (`shared = true`) or at the position after the
skipped regions. -/
def memoryMapWeights (c : Config) (shared : Bool) : WeightOffsets :=
  let headSize := cdiv c.dim c.n_heads
  let o0 : Int := 0
  let o1 := o0 + c.vocab_size * c.dim
  let o2 := o1 + c.n_layers * c.dim
  let o3 := o2 + c.n_layers * c.dim * (c.n_heads * headSize)
  let o4 := o3 + c.n_layers * c.dim * (c.n_kv_heads * headSize)
  let o5 := o4 + c.n_layers * c.dim * (c.n_kv_heads * headSize)
  let o6 := o5 + c.n_layers * (c.n_heads * headSize) * c.dim
  let o7 := o6 + c.n_layers * c.dim
  let o8 := o7 + c.n_layers * c.dim * c.hidden_dim
  let o9 := o8 + c.n_layers * c.hidden_dim * c.dim
  let o10 := o9 + c.n_layers * c.dim * c.hidden_dim
  let o11 := o10 + c.dim
  let o12 := o11 + cdiv (c.max_seq_len * headSize) 2
  let o13 := o12 + cdiv (c.max_seq_len * headSize) 2
  { tokenEmbeddingTable := o0, rmsAttWeight := o1, wq := o2, wk := o3, wv := o4,
    wo := o5, rmsFfnWeight := o6, w1 := o7, w2 := o8, w3 := o9,
    rmsFinalWeight := o10, wcls := if shared then o0 else o13 }

/-- The fatal load errors that `read_checkpoint` (`llama2.cu` lines 407-430)
can actually signal: an unreadable file (`fopen`/`open` failure) and a header
too short for one `Config` struct (`fread` short count).  The source has no
error path for a size mismatch between the blob and the weight layout. -/
inductive LoadError where
  | missingFile
  | truncatedHeader
  deriving DecidableEq

/-- A checkpoint blob, modelled as the 4-byte words of the file: `header` are
the leading words read as signed integers (a well-formed file has at least 7;
a truncated file has fewer), `body` the remaining words read as floats.
The byte length of the file is `4 * (header.length + body.length)`. -/
structure CheckpointFile where
  header : List Int
  body : List Rat
  deriving DecidableEq

/-- The result of a successful load: the (vocab-size-corrected) config, the
shared-classifier flag, the recorded file size in bytes, and the mapped
weight-region offsets. -/
structure LoadedModel where
  config : Config
  sharedWeights : Bool
  fileSize : Nat
  offsets : WeightOffsets
  deriving DecidableEq

/-- `read_checkpoint` (`llama2.cu` lines 407-430): reads the 7-int header
(failing if the file is shorter), derives `shared_weights` from the sign of
the stored vocab size, replaces the vocab size by its absolute value, records
the total file size, and maps the weight regions.  No other validation is
performed: the file size is never compared against the weight layout. -/
def readCheckpoint (f : CheckpointFile) : Except LoadError LoadedModel :=
  if f.header.length < 7 then .error .truncatedHeader
  else
    let raw : Config := ⟨f.header.getD 0 0, f.header.getD 1 0, f.header.getD 2 0,
      f.header.getD 3 0, f.header.getD 4 0, f.header.getD 5 0, f.header.getD 6 0⟩
    let shared : Bool := decide (0 < raw.vocab_size)
    let config : Config := { raw with vocab_size := (raw.vocab_size.natAbs : Int) }
    .ok { config := config, sharedWeights := shared,
          fileSize := 4 * (f.header.length + f.body.length),
          offsets := memoryMapWeights config shared }

/-- The byte length a checkpoint blob would have to have to match the fixed
weight layout: 28 header bytes plus 4 bytes per float of every region walked
by `memory_map_weights` (including the skipped rotary-table regions, and the
separate classifier region exactly when the weights are untied).  This is the
spec-side quantity (spec sections 3 and 6) used to compare the claimed size
validation against the loader's actual behaviour. -/
def checkpointLayoutBytes (c : Config) (shared : Bool) : Int :=
  let headSize := cdiv c.dim c.n_heads
  28 + 4 * (c.vocab_size * c.dim
    + c.n_layers * c.dim
    + c.n_layers * c.dim * (c.n_heads * headSize)
    + c.n_layers * c.dim * (c.n_kv_heads * headSize)
    + c.n_layers * c.dim * (c.n_kv_heads * headSize)
    + c.n_layers * (c.n_heads * headSize) * c.dim
    + c.n_layers * c.dim
    + c.n_layers * c.dim * c.hidden_dim
    + c.n_layers * c.hidden_dim * c.dim
    + c.n_layers * c.dim * c.hidden_dim
    + c.dim
    + 2 * cdiv (c.max_seq_len * headSize) 2
    + (if shared then 0 else c.vocab_size * c.dim))

/-- The tokenizer state used by `encode`: the vocabulary pieces (byte strings)
and their merge scores, indexed by token id (struct `Tokenizer` of
`llama2.cu`, lines 46-53). -/
structure Tokenizer where
  vocab : List (List Nat)
  vocabScores : List Rat
  deriving DecidableEq

/-- `str_lookup` (`llama2.cu` lines 195-200): exact-match lookup of a byte
string in the vocabulary, returning its token id or `-1` when absent.  The
source searches a lazily sorted copy with `bsearch`; for a duplicate-free
vocabulary that is the same as the first exact match in id order, which is
how it is modelled. -/
def strLookup (vocab : List (List Nat)) (s : List Nat) : Int :=
  match vocab.findIdx? (fun p => p == s) with
  | some i => (i : Int)
  | none => -1

/-- Read the vocabulary piece for a token id (`t->vocab[id]`).  A negative or
out-of-range id is undefined behaviour in C; it is totalized here to the empty
piece, and every theorem that touches it either proves the id in range or
exhibits the out-of-range access explicitly (`mergeScanOOB`). -/
def pieceD (t : Tokenizer) (id : Int) : List Nat :=
  if id < 0 then [] else t.vocab.getD id.toNat []

/-- Read the merge score for a token id (`t->vocab_scores[id]`), totalized
like `pieceD`. -/
def scoreOf (t : Tokenizer) (id : Int) : Rat :=
  if id < 0 then 0 else t.vocabScores.getD id.toNat 0

/-- The initial `best_score` of each BPE scan pass: `-1e10`
(`llama2.cu` line 293).  `-1e10` is exactly representable as a float. -/
def sentinel : Rat := -10000000000

/-- The merge candidate at position `i`: concatenate the pieces of the
adjacent tokens `i` and `i+1` and look the concatenation up
(`llama2.cu` lines 299-300). -/
def resolveAt (t : Tokenizer) (ts : List Int) (i : Nat) : Int :=
  strLookup t.vocab (pieceD t (ts.getD i 0) ++ pieceD t (ts.getD (i + 1) 0))

/-- One step of the scan loop of `encode` (`llama2.cu` lines 297-307): if the
pair at `i` resolves (`id != -1`) and its score strictly exceeds the best so
far, it becomes the new best. -/
def scanStep (t : Tokenizer) (ts : List Int) (acc : Rat × Option (Int × Nat)) (i : Nat) :
    Rat × Option (Int × Nat) :=
  if resolveAt t ts i ≠ -1 ∧ acc.1 < scoreOf t (resolveAt t ts i) then
    (scoreOf t (resolveAt t ts i), some (resolveAt t ts i, i))
  else acc

/-- One full scan pass over all adjacent pairs, starting from
`best_score = -1e10, best_id = best_idx = -1` (the `-1` markers are modelled
by `none`). -/
def scanBest (t : Tokenizer) (ts : List Int) : Rat × Option (Int × Nat) :=
  (List.range (ts.length - 1)).foldl (scanStep t ts) (sentinel, none)

/-- Apply a chosen merge (`llama2.cu` lines 313-319): overwrite position `idx`
with the merged id and shift the rest of the sequence left by one. -/
def mergeOnce (ts : List Int) (id : Int) (idx : Nat) : List Int :=
  (ts.set idx id).eraseIdx (idx + 1)

/-- The `while (1)` merge loop of `encode` (`llama2.cu` lines 292-320), with
an explicit fuel parameter for structural recursion; `none` means the fuel ran
out before the loop finished.  On success it returns the final token sequence
together with the number of merge iterations performed.
`mergeLoopF_fuel` proves that fuel `ts.length + 1` always suffices, so the
fuel is a proof device, not a semantic difference from the C loop. -/
def mergeLoopF (t : Tokenizer) : Nat → List Int → Option (List Int × Nat)
  | 0, _ => none
  | fuel + 1, ts =>
    match scanBest t ts with
    | (_, none) => some (ts, 0)
    | (_, some (id, idx)) =>
      (mergeLoopF t fuel (mergeOnce ts id idx)).map (fun r => (r.1, r.2 + 1))

/-- Whether a byte is a UTF-8 continuation byte: top two bits are `10`
(`llama2.cu` lines 253-257). -/
def isCont (b : Nat) : Bool := b &&& 0xC0 == 0x80

/-- Whether the byte after the current one is a continuation byte
(`*(c+1) & 0xC0) == 0x80`; the terminating NUL of the C string is not). -/
def nextIsCont : List Nat → Bool
  | r :: _ => isCont r
  | [] => false

/-- The raw-byte scanning loop of `encode` (`llama2.cu` lines 251-289): group
bytes into complete UTF-8 code points (resetting the buffer at each
non-continuation byte, flushing after at most 4 bytes), look each group up in
the vocabulary, and fall back to one token per byte (id = byte value + 3)
when the group is absent. -/
def utf8Scan (t : Tokenizer) : List Nat → List Nat → List Int
  | [], _ => []
  | c :: rest, buf =>
    let buf1 := if isCont c then buf else []
    let buf2 := buf1 ++ [c]
    if nextIsCont rest ∧ buf2.length < 4 then
      utf8Scan t rest buf2
    else
      let id := strLookup t.vocab buf2
      (if id ≠ -1 then [id] else buf2.map (fun b => (b : Int) + 3)) ++ utf8Scan t rest []

/-- The token sequence of `encode` before the merge loop (`llama2.cu` lines
226-289): optional BOS id 1, then — for non-empty text — the result of looking
up the single-space piece (appended UNCONDITIONALLY, even when the lookup
returns `-1`, lines 235-239), then the scanned text tokens. -/
def encodePreMerge (t : Tokenizer) (text : List Nat) (bos : Bool) : List Int :=
  (if bos then [1] else [])
    ++ (if text ≠ [] then [strLookup t.vocab [32]] else [])
    ++ utf8Scan t text []

/-- Whether the merge-scan pass over `ts` would read `t->vocab` at an
out-of-range index (undefined behaviour in C): some adjacent pair contains a
token id that is negative or at least the vocabulary size. -/
def mergeScanOOB (t : Tokenizer) (ts : List Int) : Bool :=
  (List.range (ts.length - 1)).any fun i =>
    decide (ts.getD i 0 < 0 ∨ (t.vocab.length : Int) ≤ ts.getD i 0
      ∨ ts.getD (i + 1) 0 < 0 ∨ (t.vocab.length : Int) ≤ ts.getD (i + 1) 0)

/-- The quantity the sequential `rmsnorm` path (`llama2.cu` lines 518-530)
passes to `1.0f / sqrtf`: mean of squares plus `1e-5`. -/
def rmsnormSeqArg (x : List Rat) : Rat :=
  (x.map (fun v => v * v)).sum / (x.length : Rat) + 1 / 100000

/-- The sequential (CPU) `rmsnorm` path (`llama2.cu` lines 518-530):
`o[j] = weight[j] * (ss * x[j])` with `ss = invsqrt (rmsnormSeqArg x)`. -/
def rmsnormSeq (invsqrt : Rat → Rat) (x w : List Rat) : List Rat :=
  let ss := invsqrt (rmsnormSeqArg x)
  List.zipWith (fun wi xi => wi * (ss * xi)) w x

/-- The quantity `rmsnorm_kernel` (`llama2.cu` lines 472-515) passes to
`1.0f / sqrtf`: the reduction tree sums the RAW elements `x[i]` (line 479
loads `x[i]`, never `x[i] * x[i]`), so the argument is the mean of the
elements plus `1e-5`, not the mean of squares.  The block-structured partial
sums are idealized to their exact combined value. -/
def rmsnormKernelArg (x : List Rat) : Rat :=
  x.sum / (x.length : Rat) + 1 / 100000

/-- The elementwise output stage of `rmsnorm_kernel` (`llama2.cu` line 514),
using the scale derived from the raw-sum argument. -/
def rmsnormKernel (invsqrt : Rat → Rat) (x w : List Rat) : List Rat :=
  let ss := invsqrt (rmsnormKernelArg x)
  List.zipWith (fun wi xi => wi * (ss * xi)) w x

/-- The device branch of the host `rmsnorm` wrapper (`llama2.cu` lines
531-544): it launches `reduce` twice (summing raw elements into the
partial-sum buffer), computes a scale into a local variable, and then does
nothing — the `// normalize and scale` section is empty, so the output buffer
`o` is never written.  The function returns the output buffer unchanged. -/
def rmsnormDeviceOut (o _x : List Rat) : List Rat := o

/-- The partial-sum buffer contents after the device branch's two `reduce`
launches, idealized to the final combined value: the sum of the RAW input
elements (the `reduce` kernel, lines 449-470, loads `x[i]`, not squares). -/
def rmsnormDevicePartial (x : List Rat) : List Rat := [x.sum]

/-- The mutable per-step scratch of the transformer, struct `RunState` of
`llama2.cu` (lines 110-125); `psum` models the `partial_sum` reduce buffer.
Each field is the contents of the corresponding float buffer. -/
structure RunState where
  x : List Rat
  psum : List Rat
  xb : List Rat
  xb2 : List Rat
  hb : List Rat
  hb2 : List Rat
  q : List Rat
  k : List Rat
  v : List Rat
  att : List Rat
  logits : List Rat
  keyCache : List Rat
  valueCache : List Rat

/-- The weight buffers of struct `TransformerWeights` (`llama2.cu` lines
88-107), as flat float lists. -/
structure TWeights where
  tokenEmbeddingTable : List Rat
  rmsAttWeight : List Rat
  rmsFfnWeight : List Rat
  wq : List Rat
  wk : List Rat
  wv : List Rat
  wo : List Rat
  w1 : List Rat
  w2 : List Rat
  w3 : List Rat
  rmsFinalWeight : List Rat
  wcls : List Rat

/-- Contiguous slice of a flat buffer: `len` elements starting at `start`. -/
def slice (l : List Rat) (start len : Nat) : List Rat := (l.drop start).take len

/-- `forward` (`llama2.cu` lines 558-580), exactly as written: copy the
embedding row of `token` into `x`, then for each layer run only the attention
RMSNorm into `xb` (sequential path when `onCpu`, otherwise the device branch,
which writes the partial-sum buffer and leaves `xb` untouched) — and nothing
else.  The q/k/v projections, rotary encoding, KV-cache write, attention,
`wo` projection, FFN block, final norm and classifier projection of the
documented algorithm are absent from the source, and the C function falls off
the end without returning a value.  The unused convenience variables of lines
565-568 are kept as `_`-bindings. -/
def forward (invsqrt : Rat → Rat) (cfg : Config) (w : TWeights) (s : RunState)
    (token pos : Nat) (onCpu : Bool) : RunState :=
  let dim := cfg.dim.toNat
  let _kvDim := cdiv (cfg.dim * cfg.n_kv_heads) cfg.n_heads
  let _kvMul := cdiv cfg.n_heads cfg.n_kv_heads
  let _hiddenDim := cfg.hidden_dim
  let _headSize := cdiv cfg.dim cfg.n_heads
  let s0 := { s with x := slice w.tokenEmbeddingTable (token * dim) dim }
  (List.range cfg.n_layers.toNat).foldl
    (fun st l =>
      if onCpu then
        { st with xb := rmsnormSeq invsqrt st.x (slice w.rmsAttWeight (l * dim) dim) }
      else
        { st with psum := rmsnormDevicePartial st.x })
    s0

/-- Iterate `forward` over a list of `(token, position)` calls, threading the
run state (the cache-population experiment of the spec's cache invariant). -/
def forwardSteps (invsqrt : Rat → Rat) (cfg : Config) (w : TWeights) (s : RunState)
    (calls : List (Nat × Nat)) (onCpu : Bool) : RunState :=
  calls.foldl (fun st c => forward invsqrt cfg w st c.1 c.2 onCpu) s

/-- How a `generate` run ends: a process exit with the given code, or normal
completion of the loop. -/
inductive GenOutcome where
  | exited (code : Int)
  | finished
  deriving DecidableEq

/-- The generation loop of `generate` (`llama2.cu` lines 586-643), taking the
already-encoded prompt tokens.  As written in the source: it exits with
`EXIT_FAILURE` when the prompt encodes to no tokens (lines 595-598);
otherwise, when `steps > 0`, the loop body runs `forward` on the first prompt
token at position 0, chooses `next` (forced from the prompt while priming —
the `sample` call of the non-priming branch is commented out), and then
unconditionally executes `exit(-1)` (line 620), so exactly one iteration ever
runs; when `steps ≤ 0` the loop body never runs and the function returns
normally.  Returns the outcome, the number of loop iterations executed, and
the final run state. -/
def generate (invsqrt : Rat → Rat) (cfg : Config) (w : TWeights) (s : RunState)
    (promptTokens : List Int) (steps : Int) (onCpu : Bool) : GenOutcome × Nat × RunState :=
  if promptTokens.length < 1 then (.exited 1, 0, s)
  else if 0 < steps then
    (.exited (-1), 1, forward invsqrt cfg w s (promptTokens.headD 0).toNat 0 onCpu)
  else (.finished, 0, s)

/-- The run parameters validated at `llama2.cu` lines 758-762.  `rngSeed` is
a C `unsigned long long`, modelled as `Nat` (so the C test `rng_seed <= 0`
holds exactly for the value 0). -/
structure RunParams where
  rngSeed : Nat
  temperature : Rat
  topp : Rat
  steps : Int
  deriving DecidableEq

/-- The parameter-correction block of `main` (`llama2.cu` lines 758-762):
seed 0 is replaced by the current time, negative temperature becomes 0, top-p
outside `[0, 1)` becomes 0.9, negative steps become 0. -/
def validateParams (p : RunParams) (timeNow : Nat) : RunParams :=
  { rngSeed := if p.rngSeed = 0 then timeNow else p.rngSeed,
    temperature := if p.temperature < 0 then 0 else p.temperature,
    topp := if p.topp < 0 ∨ 1 ≤ p.topp then 9 / 10 else p.topp,
    steps := if p.steps < 0 then 0 else p.steps }

/-- The post-load step clamp of `main` (`llama2.cu` line 768): steps equal to
0 or above `max_seq_len` become `max_seq_len`. -/
def clampSteps (steps maxSeqLen : Int) : Int :=
  if steps = 0 ∨ maxSeqLen < steps then maxSeqLen else steps

/-- Invariant of the scan pass after processing pair positions `0..m-1`:
the accumulator is the leftmost highest-scored resolving candidate so far
whose score exceeds the `-1e10` sentinel, or the untouched initial value when
no candidate has exceeded the sentinel. -/
def ScanInv (t : Tokenizer) (ts : List Int) (m : Nat) (acc : Rat × Option (Int × Nat)) : Prop :=
  (acc.2 = none → acc.1 = sentinel) ∧
  (∀ id idx, acc.2 = some (id, idx) →
    idx < m ∧ resolveAt t ts idx = id ∧ id ≠ -1 ∧ acc.1 = scoreOf t id ∧ sentinel < acc.1 ∧
    ∀ j, j < idx → resolveAt t ts j ≠ -1 → scoreOf t (resolveAt t ts j) < acc.1) ∧
  (∀ j, j < m → resolveAt t ts j ≠ -1 → scoreOf t (resolveAt t ts j) ≤ acc.1)

/-- Concrete tokenizer for the C5 counterexample: pieces `a`, `b`, `ab` where
the merged piece `ab` carries exactly the sentinel score `-1e10`. -/
def tokC5X : Tokenizer := ⟨[[97], [98], [97, 98]], [0, 0, sentinel]⟩

/-- Concrete tokenizer for the C5 witness: pieces `a`, `b`, `ab` with an
ordinary positive score on the merged piece. -/
def tokC5W : Tokenizer := ⟨[[97], [98], [97, 98]], [0, 0, 5]⟩

/-- Concrete tokenizer for C7: a single piece `a`; in particular the
single-space piece is absent, so the dummy lookup of `encode` fails. -/
def tokC7 : Tokenizer := ⟨[[97]], [0]⟩

/-- Concrete checkpoint blob for the C4 counterexample: a valid all-ones
header followed by an empty body, so the byte length (28) cannot match the
weight layout. -/
def fileC4 : CheckpointFile := ⟨[1, 1, 1, 1, 1, 1, 1], []⟩

/-- The model that loading `fileC4` produces. -/
def modelC4 : LoadedModel :=
  ⟨⟨1, 1, 1, 1, 1, 1, 1⟩, true, 28, ⟨0, 1, 2, 3, 4, 5, 6, 7, 8, 9, 10, 0⟩⟩

/-- Concrete checkpoint blob for the C4 witness: header plus two body words. -/
def fileC4W : CheckpointFile := ⟨[2, 3, 1, 1, 1, 4, 5], [0, 1]⟩

/-- Concrete checkpoint blob for the C8 witness: stored vocab size `-3`
(untied classifier weights). -/
def fileC8W : CheckpointFile := ⟨[1, 1, 1, 1, 1, -3, 1], []⟩

/-- A `foldl` preserves any invariant preserved by each step. -/
theorem foldlInv {α β : Type _} (P : β → Prop) (f : β → α → β)
    (l : List α) (b : β) (hb : P b) (hf : ∀ b' a, P b' → P (f b' a)) :
    P (l.foldl f b) := by
  induction l generalizing b with
  | nil => exact hb
  | cons a l ih => exact ih _ (hf _ _ hb)

/-- One scan step preserves the leftmost-best invariant. -/
theorem scanStep_inv (t : Tokenizer) (ts : List Int) (m : Nat) (acc : Rat × Option (Int × Nat))
    (h : ScanInv t ts m acc) : ScanInv t ts (m + 1) (scanStep t ts acc m) := by
  obtain ⟨hnone, hsome, hle⟩ := h
  have hsent : sentinel ≤ acc.1 := by
    match hacc : acc.2 with
    | none => exact le_of_eq (hnone hacc).symm
    | some (id, idx) => exact le_of_lt ((hsome id idx hacc).2.2.2.2.1)
  unfold scanStep
  by_cases hc : resolveAt t ts m ≠ -1 ∧ acc.1 < scoreOf t (resolveAt t ts m)
  · rw [if_pos hc]
    refine ⟨by intro hx; simp at hx, ?_, ?_⟩
    · intro id idx hx
      have hinj : resolveAt t ts m = id ∧ m = idx := by
        simpa using hx
      obtain ⟨hid1, hid2⟩ := hinj
      subst hid1
      subst hid2
      refine ⟨Nat.lt_succ_self m, rfl, hc.1, rfl, lt_of_le_of_lt hsent hc.2, ?_⟩
      intro j hj hr
      exact lt_of_le_of_lt (hle j hj hr) hc.2
    · intro j hj hr
      have hj2 : j < m ∨ j = m := by omega
      rcases hj2 with hj' | hj'
      · exact le_trans (hle j hj' hr) (le_of_lt hc.2)
      · subst hj'
        exact le_refl _
  · rw [if_neg hc]
    refine ⟨hnone, ?_, ?_⟩
    · intro id idx hx
      obtain ⟨h1, h2, h3, h4, h5, h6⟩ := hsome id idx hx
      exact ⟨Nat.lt_succ_of_lt h1, h2, h3, h4, h5, h6⟩
    · intro j hj hr
      have hj2 : j < m ∨ j = m := by omega
      rcases hj2 with hj' | hj'
      · exact hle j hj' hr
      · subst hj'
        by_contra hlt
        exact hc ⟨hr, not_le.mp hlt⟩

/-- The scan pass over the first `m` pair positions satisfies the invariant. -/
theorem scanRange_inv (t : Tokenizer) (ts : List Int) (m : Nat) :
    ScanInv t ts m ((List.range m).foldl (scanStep t ts) (sentinel, none)) := by
  induction m with
  | zero =>
    refine ⟨fun _ => rfl, ?_, ?_⟩
    · intro id idx hx
      simp at hx
    · intro j hj
      exact absurd hj (Nat.not_lt_zero j)
  | succ m ih =>
    rw [List.range_succ, List.foldl_append, List.foldl_cons, List.foldl_nil]
    exact scanStep_inv t ts m _ ih

/-- The full scan pass of `encode` satisfies the leftmost-best invariant. -/
theorem scanBest_inv (t : Tokenizer) (ts : List Int) :
    ScanInv t ts (ts.length - 1) (scanBest t ts) :=
  scanRange_inv t ts (ts.length - 1)

/-- A merge at an in-range pair position shortens the sequence by one. -/
theorem mergeOnce_length (ts : List Int) (id : Int) (idx : Nat) (h : idx + 1 < ts.length) :
    (mergeOnce ts id idx).length = ts.length - 1 := by
  unfold mergeOnce
  rw [List.length_eraseIdx]
  simp only [List.length_set]
  split <;> omega

/-- Fuel exceeding the token count always suffices for the merge loop, and
every iteration removes exactly one token. -/
theorem mergeLoopF_fuel (t : Tokenizer) :
    ∀ fuel (ts : List Int), ts.length < fuel →
      ∃ ts' n, mergeLoopF t fuel ts = some (ts', n) ∧ ts'.length + n = ts.length := by
  intro fuel
  induction fuel with
  | zero =>
    intro ts h
    exact absurd h (Nat.not_lt_zero _)
  | succ fuel ih =>
    intro ts h
    rcases hscan : scanBest t ts with ⟨sc, b⟩
    cases b with
    | none =>
      refine ⟨ts, 0, ?_, by omega⟩
      simp [mergeLoopF, hscan]
    | some p =>
      obtain ⟨id, idx⟩ := p
      have hidx : idx + 1 < ts.length := by
        have inv := scanBest_inv t ts
        rw [hscan] at inv
        have h1 := (inv.2.1 id idx rfl).1
        omega
      have hlen : (mergeOnce ts id idx).length = ts.length - 1 :=
        mergeOnce_length ts id idx hidx
      obtain ⟨ts', n, heq, hsum⟩ := ih (mergeOnce ts id idx) (by omega)
      refine ⟨ts', n + 1, ?_, by omega⟩
      simp [mergeLoopF, hscan, heq]

/-- C5 (amended): in every iteration of the BPE merge loop, among all
adjacent token pairs whose concatenated pieces exist in the vocabulary AND
whose score exceeds the initial sentinel `-1e10`, the pair with the highest
vocabulary score is chosen (ties broken by leftmost position), that pair is
replaced by the resolved id and the remaining sequence shifts left by one;
the loop stops when no pair resolves with a score above the sentinel. -/
theorem bpe_scan_picks_leftmost_best (t : Tokenizer) (ts : List Int) (sc : Rat)
    (b : Option (Int × Nat)) (h : scanBest t ts = (sc, b)) :
    (∀ id idx, b = some (id, idx) →
      resolveAt t ts idx = id ∧ id ≠ -1 ∧ sc = scoreOf t id ∧ sentinel < sc ∧
      idx + 1 < ts.length ∧
      (∀ j, j + 1 < ts.length → resolveAt t ts j ≠ -1 →
        scoreOf t (resolveAt t ts j) ≤ sc) ∧
      (∀ j, j < idx → resolveAt t ts j ≠ -1 →
        scoreOf t (resolveAt t ts j) < sc) ∧
      (∀ fuel, mergeLoopF t (fuel + 1) ts
        = (mergeLoopF t fuel (mergeOnce ts id idx)).map (fun r => (r.1, r.2 + 1)))) ∧
    (b = none → sc = sentinel ∧
      (∀ j, j + 1 < ts.length → resolveAt t ts j ≠ -1 →
        scoreOf t (resolveAt t ts j) ≤ sentinel) ∧
      (∀ fuel, mergeLoopF t (fuel + 1) ts = some (ts, 0))) := by
  have inv := scanBest_inv t ts
  rw [h] at inv
  obtain ⟨hnone, hsome, hle⟩ := inv
  constructor
  · intro id idx hb
    subst hb
    obtain ⟨h1, h2, h3, h4, h5, h6⟩ := hsome id idx rfl
    refine ⟨h2, h3, h4, ?_, by omega, ?_, ?_, ?_⟩
    · exact h5
    · intro j hj hr
      exact hle j (by omega) hr
    · intro j hj hr
      exact h6 j hj hr
    · intro fuel
      simp [mergeLoopF, h]
  · intro hb
    subst hb
    refine ⟨hnone rfl, ?_, ?_⟩
    · intro j hj hr
      have := hle j (by omega) hr
      rwa [hnone rfl] at this
    · intro fuel
      simp [mergeLoopF, h]

/-- C5 witness: on the vocabulary `a`, `b`, `ab` (score of `ab` = 5) and the
token sequence `[0, 1]`, the scan selects the resolving pair at position 0
with id 2 and all the properties stated by the main theorem hold. -/
theorem bpe_scan_picks_leftmost_best_witness :
    resolveAt tokC5W [0, 1] 0 = 2 ∧ (2 : Int) ≠ -1 ∧ (5 : Rat) = scoreOf tokC5W 2 ∧
    sentinel < (5 : Rat) ∧ 0 + 1 < ([0, 1] : List Int).length ∧
    (∀ j, j + 1 < ([0, 1] : List Int).length → resolveAt tokC5W [0, 1] j ≠ -1 →
      scoreOf tokC5W (resolveAt tokC5W [0, 1] j) ≤ (5 : Rat)) ∧
    (∀ j, j < 0 → resolveAt tokC5W [0, 1] j ≠ -1 →
      scoreOf tokC5W (resolveAt tokC5W [0, 1] j) < (5 : Rat)) ∧
    (∀ fuel, mergeLoopF tokC5W (fuel + 1) [0, 1]
      = (mergeLoopF tokC5W fuel (mergeOnce [0, 1] 2 0)).map (fun r => (r.1, r.2 + 1))) :=
  (bpe_scan_picks_leftmost_best tokC5W [0, 1] 5 (some (2, 0)) (by decide)).1 2 0 rfl

/-- C5 counterexample to the claim as stated: with the vocabulary `a`, `b`,
`ab` where `ab` carries exactly the sentinel score `-1e10`, the adjacent pair
`(0, 1)` resolves to token 2, yet the merge loop performs no merge at all
(the score is not strictly greater than the initial `best_score = -1e10`),
so the highest-scored resolving pair is NOT chosen and the loop stops even
though a pair resolves. -/
theorem bpe_merge_misses_sentinel_scored_pair :
    resolveAt tokC5X [0, 1] 0 = 2 ∧
    mergeLoopF tokC5X 3 [0, 1] = some ([0, 1], 0) := by
  decide

/-- C6: the BPE merge loop terminates for every token sequence: fuel one more
than the initial token count always completes the loop, each successful merge
removes exactly one token (`ts'.length + n = ts.length`), and hence the
number of merge iterations is bounded by the initial token count. -/
theorem bpe_merge_loop_terminates (t : Tokenizer) (ts : List Int) :
    ∃ ts' n, mergeLoopF t (ts.length + 1) ts = some (ts', n) ∧
      ts'.length + n = ts.length ∧ n ≤ ts.length := by
  obtain ⟨ts', n, h1, h2⟩ := mergeLoopF_fuel t (ts.length + 1) ts (by omega)
  exact ⟨ts', n, h1, h2, by omega⟩

/-- C7: with a vocabulary lacking the single-space piece, `encode` of the
non-empty text `a` (with BOS) stores the failed lookup result `-1` directly
into the token sequence — the code of `llama2.cu` lines 235-239 appends
`str_lookup(" ")` unconditionally — and the subsequent merge scan then reads
`t->vocab` at an out-of-range index (undefined behaviour), instead of
behaving as if no dummy token had been emitted. -/
theorem encode_dummy_lookup_failure_pollutes_tokens :
    strLookup tokC7.vocab [32] = -1 ∧
    encodePreMerge tokC7 [97] true = [1, -1, 0] ∧
    (-1 : Int) ∈ encodePreMerge tokC7 [97] true ∧
    mergeScanOOB tokC7 (encodePreMerge tokC7 [97] true) = true := by
  decide

/-- A single `forward` call changes at most the `x`, `xb` and `psum` scratch
buffers: every other `RunState` field — in particular the logits, the
attention buffers and both KV-cache planes — is returned untouched. -/
theorem forward_frame (invsqrt : Rat → Rat) (cfg : Config) (w : TWeights) (s : RunState)
    (token pos : Nat) (onCpu : Bool) :
    (forward invsqrt cfg w s token pos onCpu).logits = s.logits ∧
    (forward invsqrt cfg w s token pos onCpu).keyCache = s.keyCache ∧
    (forward invsqrt cfg w s token pos onCpu).valueCache = s.valueCache ∧
    (forward invsqrt cfg w s token pos onCpu).q = s.q ∧
    (forward invsqrt cfg w s token pos onCpu).k = s.k ∧
    (forward invsqrt cfg w s token pos onCpu).v = s.v ∧
    (forward invsqrt cfg w s token pos onCpu).att = s.att ∧
    (forward invsqrt cfg w s token pos onCpu).hb = s.hb ∧
    (forward invsqrt cfg w s token pos onCpu).hb2 = s.hb2 ∧
    (forward invsqrt cfg w s token pos onCpu).xb2 = s.xb2 := by
  unfold forward
  refine foldlInv
    (fun (st : RunState) => st.logits = s.logits ∧ st.keyCache = s.keyCache ∧
      st.valueCache = s.valueCache ∧ st.q = s.q ∧ st.k = s.k ∧ st.v = s.v ∧
      st.att = s.att ∧ st.hb = s.hb ∧ st.hb2 = s.hb2 ∧ st.xb2 = s.xb2)
    _ _ _ ?_ ?_
  · exact ⟨rfl, rfl, rfl, rfl, rfl, rfl, rfl, rfl, rfl, rfl⟩
  · intro st l hst
    cases onCpu with
    | false => exact hst
    | true => exact hst

/-- C1: the claim fails on the code: for every token, position, weight set
and run state, `forward` leaves the logits buffer (and the attention, FFN and
KV-cache buffers) exactly as they were — it computes no attention, no
feed-forward block and no classifier projection, so it cannot return a logits
vector produced by the documented per-layer algorithm.  (The C function even
lacks a `return` statement.) -/
theorem forward_computes_no_logits (invsqrt : Rat → Rat) (cfg : Config) (w : TWeights)
    (s : RunState) (token pos : Nat) (onCpu : Bool) :
    (forward invsqrt cfg w s token pos onCpu).logits = s.logits ∧
    (forward invsqrt cfg w s token pos onCpu).q = s.q ∧
    (forward invsqrt cfg w s token pos onCpu).att = s.att ∧
    (forward invsqrt cfg w s token pos onCpu).hb = s.hb ∧
    (forward invsqrt cfg w s token pos onCpu).keyCache = s.keyCache ∧
    (forward invsqrt cfg w s token pos onCpu).valueCache = s.valueCache := by
  obtain ⟨h1, h2, h3, h4, h5, h6, h7, h8, h9, h10⟩ :=
    forward_frame invsqrt cfg w s token pos onCpu
  exact ⟨h1, h4, h7, h8, h2, h3⟩

/-- C9: the claim fails on the code: after any sequence of `forward` calls —
of any length, at any positions, including a call at
`position = max_seq_len` (which is not rejected: the model `forward` is total
and the source contains no overflow check) — both KV-cache planes equal their
initial contents for every layer: no cache position is ever populated, and no
`SequenceOverflow` error exists in the program. -/
theorem kv_cache_never_populated (invsqrt : Rat → Rat) (cfg : Config) (w : TWeights)
    (s : RunState) (calls : List (Nat × Nat)) (onCpu : Bool) :
    (forwardSteps invsqrt cfg w s calls onCpu).keyCache = s.keyCache ∧
    (forwardSteps invsqrt cfg w s calls onCpu).valueCache = s.valueCache := by
  unfold forwardSteps
  refine foldlInv
    (fun (st : RunState) => st.keyCache = s.keyCache ∧ st.valueCache = s.valueCache)
    _ _ _ ⟨rfl, rfl⟩ ?_
  intro st c hst
  obtain ⟨h1, h2, h3, h4, h5, h6, h7, h8, h9, h10⟩ :=
    forward_frame invsqrt cfg w st c.1 c.2 onCpu
  exact ⟨h2.trans hst.1, h3.trans hst.2⟩

/-- C2: the claim fails on the code: for every non-empty prompt and every
positive step budget, `generate` executes exactly one loop iteration and then
terminates the whole process with `exit(-1)` — it never runs to the step
budget, never samples (the `sample` call is commented out), and never reaches
the begin-of-sequence termination check (also commented out). -/
theorem generate_exits_after_first_step (invsqrt : Rat → Rat) (cfg : Config) (w : TWeights)
    (s : RunState) (tok : Int) (rest : List Int) (steps : Nat) (onCpu : Bool) :
    generate invsqrt cfg w s (tok :: rest) ((steps : Int) + 1) onCpu
      = (.exited (-1), 1, forward invsqrt cfg w s tok.toNat 0 onCpu) := by
  unfold generate
  rw [if_neg (by simp), if_pos (by omega)]
  rfl

/-- C3: the claim fails on the code (evaluated at the failing input
`x = [2, 1]`, `weight = [1, 1]`): the sequential path feeds the sum-of-squares
mean `(4+1)/2 + 1e-5` to `1/sqrt`, while both accelerator paths reduce the
RAW elements and feed `(2+1)/2 + 1e-5` — two different quantities — and the
host device branch additionally never writes the output buffer at all, so the
parallel path cannot reproduce the sequential output within any tolerance. -/
theorem rmsnorm_paths_diverge :
    rmsnormSeqArg [2, 1] = 250001 / 100000 ∧
    rmsnormKernelArg [2, 1] = 150001 / 100000 ∧
    rmsnormSeqArg [2, 1] ≠ rmsnormKernelArg [2, 1] ∧
    rmsnormDeviceOut [0, 0] [2, 1] = [0, 0] ∧
    rmsnormDevicePartial [2, 1] = [3] := by
  refine ⟨?_, ?_, ?_, rfl, by norm_num [rmsnormDevicePartial]⟩
  · norm_num [rmsnormSeqArg]
  · norm_num [rmsnormKernelArg]
  · norm_num [rmsnormSeqArg, rmsnormKernelArg]

/-- C4 (amended): the loader's only failure conditions are an unreadable file
and a truncated header: every blob whose header has at least the 7 config
words loads successfully, whatever its total length, and a shorter header
fails with the truncated-header error.  No comparison of the blob length
against the weight layout is performed. -/
theorem readCheckpoint_validates_only_header (f : CheckpointFile) :
    (f.header.length < 7 → readCheckpoint f = .error .truncatedHeader) ∧
    (7 ≤ f.header.length → (readCheckpoint f).toOption.isSome = true) := by
  constructor
  · intro h
    unfold readCheckpoint
    rw [if_pos h]
  · intro h
    unfold readCheckpoint
    rw [if_neg (by omega)]
    rfl

/-- C4 witness: a concrete blob with a 7-word header and a 2-word body loads
successfully. -/
theorem readCheckpoint_validates_only_header_witness :
    (readCheckpoint fileC4W).toOption.isSome = true :=
  (readCheckpoint_validates_only_header fileC4W).2 (by decide)

/-- C4 counterexample to the claim as stated: the header-only blob `fileC4`
(valid all-ones header, empty body, 28 bytes) does not match the weight
layout — which requires 72 bytes — yet `read_checkpoint` accepts it without
any error, so no `CorruptCheckpoint`-style size validation exists. -/
theorem readCheckpoint_accepts_size_mismatch :
    (readCheckpoint fileC4).toOption = some modelC4 ∧
    checkpointLayoutBytes modelC4.config modelC4.sharedWeights = 72 ∧
    (modelC4.fileSize : Int) = 28 ∧
    checkpointLayoutBytes modelC4.config modelC4.sharedWeights ≠ (modelC4.fileSize : Int) := by
  decide

/-- C8: for every checkpoint blob with a complete header, the loader stores
the absolute value of the stored vocab-size field as the true vocab size,
records tied classifier weights exactly when the stored field is positive,
and in that case `wcls` aliases the token-embedding table; otherwise `wcls`
points at the position after the final-norm region and the two skipped
rotary-table regions of `max_seq_len * head_size / 2` floats each. -/
theorem loader_vocab_sign_and_wcls (f : CheckpointFile) (h : 7 ≤ f.header.length) :
    ∃ m, readCheckpoint f = .ok m ∧
      m.config.vocab_size = ((f.header.getD 5 0).natAbs : Int) ∧
      m.sharedWeights = decide (0 < f.header.getD 5 0) ∧
      (0 < f.header.getD 5 0 → m.offsets.wcls = m.offsets.tokenEmbeddingTable) ∧
      (f.header.getD 5 0 ≤ 0 →
        m.offsets.wcls = m.offsets.rmsFinalWeight + m.config.dim
          + 2 * cdiv (m.config.max_seq_len * cdiv m.config.dim m.config.n_heads) 2) := by
  unfold readCheckpoint
  rw [if_neg (by omega)]
  refine ⟨_, rfl, rfl, rfl, ?_, ?_⟩
  · intro hv
    simp only [memoryMapWeights]
    rw [if_pos (by simpa using hv)]
  · intro hv
    simp only [memoryMapWeights]
    rw [if_neg (by simpa using hv)]
    ring

/-- C8 witness: the loader applied to the concrete blob `fileC8W`, whose
stored vocab-size field is `-3` (untied classifier weights). -/
theorem loader_vocab_sign_and_wcls_witness :
    ∃ m, readCheckpoint fileC8W = .ok m ∧
      m.config.vocab_size = ((fileC8W.header.getD 5 0).natAbs : Int) ∧
      m.sharedWeights = decide (0 < fileC8W.header.getD 5 0) ∧
      (0 < fileC8W.header.getD 5 0 → m.offsets.wcls = m.offsets.tokenEmbeddingTable) ∧
      (fileC8W.header.getD 5 0 ≤ 0 →
        m.offsets.wcls = m.offsets.rmsFinalWeight + m.config.dim
          + 2 * cdiv (m.config.max_seq_len * cdiv m.config.dim m.config.n_heads) 2) :=
  loader_vocab_sign_and_wcls fileC8W (by decide)

/-- C10: out-of-range run parameters are silently corrected, never rejected:
a zero seed (the only value of the unsigned seed satisfying the C test
`rng_seed <= 0`) becomes the current time, negative temperature becomes 0,
top-p outside `[0, 1)` becomes 0.9, negative steps become 0 in the first
pass, and after the transformer is built, steps equal to 0 or above
`max_seq_len` become `max_seq_len`; in-range values pass through unchanged. -/
theorem run_params_silently_clamped (p : RunParams) (timeNow : Nat) (maxSeqLen : Int) :
    (p.rngSeed = 0 → (validateParams p timeNow).rngSeed = timeNow) ∧
    (p.rngSeed ≠ 0 → (validateParams p timeNow).rngSeed = p.rngSeed) ∧
    (p.temperature < 0 → (validateParams p timeNow).temperature = 0) ∧
    (0 ≤ p.temperature → (validateParams p timeNow).temperature = p.temperature) ∧
    ((p.topp < 0 ∨ 1 ≤ p.topp) → (validateParams p timeNow).topp = 9 / 10) ∧
    ((0 ≤ p.topp ∧ p.topp < 1) → (validateParams p timeNow).topp = p.topp) ∧
    (p.steps < 0 → (validateParams p timeNow).steps = 0) ∧
    (0 ≤ p.steps → (validateParams p timeNow).steps = p.steps) ∧
    ((p.steps = 0 ∨ maxSeqLen < p.steps) → clampSteps p.steps maxSeqLen = maxSeqLen) ∧
    (p.steps ≠ 0 → p.steps ≤ maxSeqLen → clampSteps p.steps maxSeqLen = p.steps) := by
  unfold validateParams clampSteps
  refine ⟨?_, ?_, ?_, ?_, ?_, ?_, ?_, ?_, ?_, ?_⟩
  · intro h
    simp [h]
  · intro h
    simp [h]
  · intro h
    simp [h]
  · intro h
    simp [not_lt.mpr h]
  · intro h
    simp [if_pos h]
  · intro h
    have hc : ¬(p.topp < 0 ∨ 1 ≤ p.topp) := by push_neg; exact ⟨h.1, h.2⟩
    simp [hc]
  · intro h
    simp [h]
  · intro h
    simp [not_lt.mpr h]
  · intro h
    simp [if_pos h]
  · intro h1 h2
    have hc : ¬(p.steps = 0 ∨ maxSeqLen < p.steps) := by push_neg; exact ⟨h1, h2⟩
    simp [hc]

/-- C10 witness: a concrete out-of-range parameter set (seed 0, temperature
-1, top-p 2, steps -5) is corrected as claimed, and a 0-step budget is
clamped to `max_seq_len = 7`. -/
theorem run_params_silently_clamped_witness :
    (validateParams ⟨0, -1, 2, -5⟩ 42).rngSeed = 42 ∧
    (validateParams ⟨0, -1, 2, -5⟩ 42).temperature = 0 ∧
    (validateParams ⟨0, -1, 2, -5⟩ 42).topp = 9 / 10 ∧
    (validateParams ⟨0, -1, 2, -5⟩ 42).steps = 0 ∧
    clampSteps 0 7 = 7 := by
  obtain ⟨h1, h2, h3, h4, h5, h6, h7, h8, h9, h10⟩ :=
    run_params_silently_clamped ⟨0, -1, 2, -5⟩ 42 7
  exact ⟨h1 rfl, h3 (by decide), h5 (Or.inr (by decide)), h7 (by decide),
    run_params_silently_clamped ⟨1, 0, 0, 0⟩ 42 7 |>.2.2.2.2.2.2.2.2.1 (Or.inl rfl)⟩

end Llama2
